import Mathlib

/-!
Verification development for the training script `src/model/train.py` of the
`auth-cookie` repository.

The script is a linear pipeline: read `data/features.csv` into a dataframe,
z-score normalize it (then reassign six columns back to their raw values),
split into train/test partitions with `train_test_split(test_size=0.2,
random_state=12)`, load a cached model from `model.sav` (catching only
`FileNotFoundError`), run a keras-tuner Bayesian hyperparameter search
maximizing the F2-score when no `RandomForestClassifier` was loaded, fit,
evaluate, and finally pickle the model only when `model.sav` is absent.

The embedding below models the dataframe as named columns of rationals,
Python exceptions as an `Except` monad, the file system state relevant to the
script as the optional content of `model.sav`, and the third-party pieces the
script merely configures (the permutation drawn by `train_test_split`'s seeded
RNG, the square root used by `pandas.DataFrame.std`, and the tuner's
search-and-fit outcome) as explicit functional parameters of the run.
-/

namespace TrainPy

/-- Python exceptions that the modelled steps of the script can raise. -/
inductive PyExc where
  | fileNotFound
  | keyError (k : String)
  | parserError
  | libraryError
deriving DecidableEq, Repr

/-- A trained sklearn `RandomForestClassifier`, abstracted to an identity tag:
the script never inspects a model's internals, it only stores, loads,
type-checks, fits and pickles whole model values. -/
structure RandomForestClassifier where
  id : Nat
deriving DecidableEq, Repr

/-- A Python object stored in the pickle file `model.sav`: either a
`RandomForestClassifier` or some other object (`type(x) != RandomForestClassifier`). -/
inductive PickleObj where
  | rfc (m : RandomForestClassifier)
  | other (tag : Nat)
deriving DecidableEq, Repr

/-- A pandas dataframe: an ordered list of named numeric columns. -/
structure DataFrame where
  cols : List (String × List ℚ)
deriving DecidableEq, Repr

/-- Column mean, as computed by `pandas.DataFrame.mean` (sum over count). -/
def colMean (xs : List ℚ) : ℚ := xs.sum / (xs.length : ℚ)

/-- Column sample variance with `ddof = 1`, the square of `pandas.DataFrame.std`. -/
def colVar (xs : List ℚ) : ℚ :=
  ((xs.map (fun x => (x - colMean xs) * (x - colMean xs))).sum) / ((xs.length : ℚ) - 1)

/-- Column lookup `df[k]`, `none` when pandas would raise a `KeyError`. -/
def getCol? (df : DataFrame) (k : String) : Option (List ℚ) :=
  (df.cols.find? (fun c => c.1 == k)).map (fun c => c.2)

/-- Column assignment `df[k] = xs`: replace the column in place when present,
append it otherwise. -/
def setCol (df : DataFrame) (k : String) (xs : List ℚ) : DataFrame :=
  if df.cols.any (fun c => c.1 == k) then
    ⟨df.cols.map (fun c => if c.1 == k then (k, xs) else c)⟩
  else
    ⟨df.cols ++ [(k, xs)]⟩

/-- The columnwise expression `(ds - ds.mean()) / ds.std()` of line 17, with the
square root inside `std` supplied as the functional parameter `sd` (so that the
development stays executable over ℚ; theorems constrain `sd` by
`sd xs * sd xs = colVar xs` exactly where the claim needs a genuine
standard deviation). -/
def normalizeAll (sd : List ℚ → ℚ) (df : DataFrame) : DataFrame :=
  ⟨df.cols.map (fun c => (c.1, c.2.map (fun x => (x - colMean c.2) / sd c.2)))⟩

/-- The six columns that lines 18-23 reassign back to their raw values. -/
def restoredCols : List String :=
  ["Class", "Length", "TFIDF_H", "TFIDF_S", "TFIDF_J", "Z_Length"]

/-- Read `df[k]`, raising `KeyError` like pandas when the column is absent. -/
def requireCol (df : DataFrame) (k : String) : Except PyExc (List ℚ) :=
  match getCol? df k with
  | some xs => Except.ok xs
  | none => Except.error (PyExc.keyError k)

/-- Lines 17-23: normalize every column, then reassign the six restored
columns from the raw dataframe, reading them in source order. -/
def normalizeStep (sd : List ℚ → ℚ) (ds : DataFrame) : Except PyExc DataFrame :=
  match requireCol ds "Class" with
  | Except.error e => Except.error e
  | Except.ok c =>
  match requireCol ds "Length" with
  | Except.error e => Except.error e
  | Except.ok l =>
  match requireCol ds "TFIDF_H" with
  | Except.error e => Except.error e
  | Except.ok th =>
  match requireCol ds "TFIDF_S" with
  | Except.error e => Except.error e
  | Except.ok ts =>
  match requireCol ds "TFIDF_J" with
  | Except.error e => Except.error e
  | Except.ok tj =>
  match requireCol ds "Z_Length" with
  | Except.error e => Except.error e
  | Except.ok z =>
    Except.ok (setCol (setCol (setCol (setCol (setCol (setCol
      (normalizeAll sd ds) "Class" c) "Length" l) "TFIDF_H" th)
      "TFIDF_S" ts) "TFIDF_J" tj) "Z_Length" z)

/-- Fixed relative path of the input CSV (line 13). -/
def csvPath : String := "data/features.csv"

/-- Fixed relative path of the serialized model (line 67). -/
def filename : String := "model.sav"

/-- The fixed RNG seed of line 28. -/
def seed : Nat := 12

/-- The `test_size=0.2` argument of line 29, as an exact rational. -/
def test_size : ℚ := 1/5

/-- Number of rows sklearn places in the test partition for `test_size=0.2`:
`ceil(0.2 * n)`.  Defined by natural-number arithmetic so that it is
kernel-executable; `testCount_eq_ceil` proves it equal to the ceiling
formula from sklearn's documented `_validate_shuffle_split` behavior. -/
def testCount (n : Nat) : Nat := (n + 4) / 5

/-- Number of rows of a dataframe (pandas `len(df)`): length of its first
column, `0` for an empty frame. -/
def nRows (df : DataFrame) : Nat :=
  match df.cols with
  | [] => 0
  | c :: _ => c.2.length

/-- Select the rows of `df` with the given indices, in order; out-of-range
indices (which never occur for a permutation of `range n`) are skipped. -/
def selectRows (df : DataFrame) (idxs : List Nat) : DataFrame :=
  ⟨df.cols.map (fun c => (c.1, idxs.filterMap (fun i => c.2.get? i)))⟩

/-- The four dataframes produced by `train_test_split` (line 29). -/
structure Split where
  Xtr : DataFrame
  Xte : DataFrame
  ytr : DataFrame
  yte : DataFrame

/-- sklearn `train_test_split(X, y, test_size=0.2, random_state=seed)`:
the seeded RNG draws a permutation of `range n`; the first
`ceil(test_size * n)` permuted indices form the test partition and the rest
the train partition.  The permutation itself is the parameter `perm`. -/
def trainTestSplit (perm : List Nat) (X y : DataFrame) : Split :=
  let nt := testCount (nRows X)
  { Xtr := selectRows X (perm.drop nt), Xte := selectRows X (perm.take nt),
    ytr := selectRows y (perm.drop nt), yte := selectRows y (perm.take nt) }

/-- Gather the named columns of `df` in order, `KeyError` on the first
missing name. -/
def colsFor (df : DataFrame) : List String → Except PyExc (List (String × List ℚ))
  | [] => Except.ok []
  | k :: ks =>
    match getCol? df k with
    | none => Except.error (PyExc.keyError k)
    | some xs =>
      match colsFor df ks with
      | Except.error e => Except.error e
      | Except.ok rest => Except.ok ((k, xs) :: rest)

/-- `normalized_ds[["Class"]]` style projection (line 26): a sub-dataframe
with exactly the requested columns, `KeyError` when one is missing. -/
def selectCols (df : DataFrame) (ks : List String) : Except PyExc DataFrame :=
  match colsFor df ks with
  | Except.ok cs => Except.ok ⟨cs⟩
  | Except.error e => Except.error e

/-- `df.drop(k, axis=1)` (line 27): remove the column, `KeyError` when absent. -/
def dropCol (df : DataFrame) (k : String) : Except PyExc DataFrame :=
  if df.cols.any (fun c => c.1 == k) then
    Except.ok ⟨df.cols.filter (fun c => !(c.1 == k))⟩
  else Except.error (PyExc.keyError k)

/-- Lines 68-71: `pickle.load(open(filename, 'rb'))` wrapped in
`try ... except FileNotFoundError: best_model = None`.  The argument is the
state of `model.sav`: `none` when the file is absent (so `open` raises
`FileNotFoundError`, which is caught), `some (Except.error e)` when reading
or unpickling raises `e` (not caught unless it is `FileNotFoundError`), and
`some (Except.ok v)` when the file unpickles to the object `v`. -/
def loadModel : Option (Except PyExc PickleObj) → Except PyExc (Option PickleObj)
  | none => Except.ok none
  | some (Except.ok v) => Except.ok (some v)
  | some (Except.error e) =>
      if e = PyExc.fileNotFound then Except.ok none else Except.error e

/-- The line 74 test `type(best_model) != RandomForestClassifier`, negated:
`isRFC loaded = true` exactly when the loaded object is a
`RandomForestClassifier` (a `None` fallback value is not). -/
def isRFC : Option PickleObj → Bool
  | some (PickleObj.rfc _) => true
  | _ => false

/-- The stages of the script, for stating control-flow claims.  `readCSV` is
line 13, `normalizeDS` lines 17-23, `splitDS` lines 26-29, `search` line 89,
`fit` lines 93-94, `evaluate` line 97, `serialize` lines 100-101. -/
inductive Stage where
  | readCSV
  | normalizeDS
  | splitDS
  | search
  | fit
  | evaluate
  | serialize
deriving DecidableEq, Repr

/-- The trace of a run that executes every stage. -/
def fullTrace : List Stage :=
  [Stage.readCSV, Stage.normalizeDS, Stage.splitDS, Stage.search, Stage.fit,
   Stage.evaluate, Stage.serialize]

/-- Everything the script has computed once the split of line 29 is done. -/
structure Prep where
  ds : DataFrame
  nds : DataFrame
  X : DataFrame
  y : DataFrame
  Xtr : DataFrame
  Xte : DataFrame
  ytr : DataFrame
  yte : DataFrame

/-- Observable outcome of a successful run. -/
structure RunResult where
  normalized : DataFrame
  X : DataFrame
  y : DataFrame
  Xtr : DataFrame
  Xte : DataFrame
  ytr : DataFrame
  yte : DataFrame
  bestModel : RandomForestClassifier
  searchRan : Bool
  trace : List Stage
  writes : List RandomForestClassifier
  finalFile : Option (Except PyExc PickleObj)

/-- The environment of one execution of the script.  `csv` is the parsed
content of the file at `csvPath` (or the exception reading it raises);
`modelFile` is the state of the file at `filename` as in `loadModel`;
`sd` is the square-root oracle of `pandas.DataFrame.std`; `rng` maps a seed
and a sample count to the permutation sklearn's seeded RNG draws; `searchFit`
is the outcome of `tuner.search` + `build` + `fit` on the train partition
(lines 89-94), allowed to raise library exceptions; `args` and `env` are the
process command line and environment, which the script never reads. -/
structure Input where
  csv : Except PyExc DataFrame
  modelFile : Option (Except PyExc PickleObj)
  sd : List ℚ → ℚ
  rng : Nat → Nat → List Nat
  searchFit : DataFrame → DataFrame → Except PyExc RandomForestClassifier
  args : List String
  env : String → Option String

/-- Lines 13-29 over explicit dependencies: read, normalize, split. -/
def prepareCore (csv : Except PyExc DataFrame) (sd : List ℚ → ℚ)
    (rng : Nat → Nat → List Nat) : Except PyExc Prep :=
  match csv with
  | Except.error e => Except.error e
  | Except.ok ds =>
  match normalizeStep sd ds with
  | Except.error e => Except.error e
  | Except.ok nds =>
  match selectCols nds ["Class"] with
  | Except.error e => Except.error e
  | Except.ok y =>
  match dropCol nds "Class" with
  | Except.error e => Except.error e
  | Except.ok X =>
    let s := trainTestSplit (rng seed (nRows X)) X y
    Except.ok { ds := ds, nds := nds, X := X, y := y,
                Xtr := s.Xtr, Xte := s.Xte, ytr := s.ytr, yte := s.yte }

/-- Lines 13-29 of the script. -/
def prepare (inp : Input) : Except PyExc Prep :=
  prepareCore inp.csv inp.sd inp.rng

/-- Assemble the observable outcome of a successful run.  The trace lists the
stages in program order; `search`/`fit` appear exactly when the line 74 type
test failed (`needSearch`), `serialize` exactly when line 100's
`not isfile(filename)` holds, which (nothing having written `model.sav`
since the load) is the initial absence of the model file.  `writes` records
every `pickle.dump` to `model.sav`; `finalFile` is the state of `model.sav`
when the script exits. -/
def mkResult (modelFile : Option (Except PyExc PickleObj)) (p : Prep)
    (needSearch : Bool) (best : RandomForestClassifier) : RunResult :=
  let absent := modelFile.isNone
  { normalized := p.nds, X := p.X, y := p.y,
    Xtr := p.Xtr, Xte := p.Xte, ytr := p.ytr, yte := p.yte,
    bestModel := best, searchRan := needSearch,
    trace := [Stage.readCSV, Stage.normalizeDS, Stage.splitDS]
      ++ (if needSearch then [Stage.search, Stage.fit] else [])
      ++ [Stage.evaluate]
      ++ (if absent then [Stage.serialize] else []),
    writes := if absent then [best] else [],
    finalFile := if absent then some (Except.ok (PickleObj.rfc best))
                 else modelFile }

/-- The `RandomForestClassifier` held by a loaded object that passed the
line 74 type test. -/
def theRFC : Option PickleObj → RandomForestClassifier
  | some (PickleObj.rfc m) => m
  | _ => ⟨0⟩

/-- Lines 13-101 over explicit dependencies.  After the split, the model file
is loaded (lines 67-71); the line 74 type test decides whether the search and
fit run; the save of lines 100-101 happens when the file is absent. -/
def runCore (csv : Except PyExc DataFrame)
    (modelFile : Option (Except PyExc PickleObj)) (sd : List ℚ → ℚ)
    (rng : Nat → Nat → List Nat)
    (searchFit : DataFrame → DataFrame → Except PyExc RandomForestClassifier) :
    Except PyExc RunResult :=
  match prepareCore csv sd rng with
  | Except.error e => Except.error e
  | Except.ok p =>
  match loadModel modelFile with
  | Except.error e => Except.error e
  | Except.ok loaded =>
  if isRFC loaded then Except.ok (mkResult modelFile p false (theRFC loaded))
  else
    match searchFit p.Xtr p.ytr with
    | Except.error e => Except.error e
    | Except.ok m => Except.ok (mkResult modelFile p true m)

/-- One run of `train.py`: `Except.error e` when an exception `e` escapes to
the caller, `Except.ok r` when the script finishes.  The process arguments
and environment of `inp` are not consulted. -/
def runScript (inp : Input) : Except PyExc RunResult :=
  runCore inp.csv inp.modelFile inp.sd inp.rng inp.searchFit

/-- Did the run finish without an escaping exception? -/
def isOkE (x : Except PyExc RunResult) : Bool :=
  match x with
  | Except.ok _ => true
  | Except.error _ => false

/-- Fallback-valued observable result of a run. -/
def emptyResult : RunResult :=
  { normalized := ⟨[]⟩, X := ⟨[]⟩, y := ⟨[]⟩, Xtr := ⟨[]⟩, Xte := ⟨[]⟩,
    ytr := ⟨[]⟩, yte := ⟨[]⟩, bestModel := ⟨0⟩, searchRan := false,
    trace := [], writes := [], finalFile := none }

/-- The result of a successful run (meaningful whenever `isOkE` holds). -/
def runResultD (inp : Input) : RunResult :=
  match runScript inp with
  | Except.ok r => r
  | Except.error _ => emptyResult

/-- The trace of a run, `[]` for a run that raised. -/
def traceOf (x : Except PyExc RunResult) : List Stage :=
  match x with
  | Except.ok r => r.trace
  | Except.error _ => []

/-- Whether the search stage ran, `none` for a run that raised. -/
def searchRanOf (x : Except PyExc RunResult) : Option Bool :=
  match x with
  | Except.ok r => some r.searchRan
  | Except.error _ => none

/-- Did lines 13-29 finish without an exception? -/
def prepOk (inp : Input) : Bool :=
  match prepare inp with
  | Except.ok _ => true
  | Except.error _ => false

/-- Fallback-valued prepared state. -/
def emptyPrep : Prep :=
  { ds := ⟨[]⟩, nds := ⟨[]⟩, X := ⟨[]⟩, y := ⟨[]⟩, Xtr := ⟨[]⟩, Xte := ⟨[]⟩,
    ytr := ⟨[]⟩, yte := ⟨[]⟩ }

/-- The prepared state of a run (meaningful whenever `prepOk` holds). -/
def prepD (inp : Input) : Prep :=
  match prepare inp with
  | Except.ok p => p
  | Except.error _ => emptyPrep

/-- Success and value of `normalizeStep`, without evaluating column data. -/
def isOkN (x : Except PyExc DataFrame) : Bool :=
  match x with
  | Except.ok _ => true
  | Except.error _ => false

/-- The normalized dataframe of lines 17-23 (meaningful whenever `isOkN`). -/
def normalizeD (sd : List ℚ → ℚ) (ds : DataFrame) : DataFrame :=
  match normalizeStep sd ds with
  | Except.ok d => d
  | Except.error _ => ⟨[]⟩

/-- A keras-tuner `kt.Objective`: a metric name and an optimization direction. -/
structure KTObjective where
  name : String
  direction : String
deriving DecidableEq, Repr

/-- The objective passed to `BayesianOptimizationOracle` on line 78:
`kt.Objective("score", "max")`. -/
def tunerObjective : KTObjective := { name := "score", direction := "max" }

/-- The `max_trials=250` argument of line 79. -/
def tunerMaxTrials : Nat := 250

/-- The `cv=StratifiedKFold(10)` argument of line 83. -/
def tunerCVFolds : Nat := 10

/-- The `beta=2` argument of `make_scorer(metrics.fbeta_score, beta=2)`
on line 82. -/
def scorerBeta : ℚ := 2

/-- sklearn `metrics.fbeta_score` on binary confusion counts:
`(1+beta^2)*tp / ((1+beta^2)*tp + beta^2*fn + fp)`, the weighted harmonic
mean of precision and recall that weights recall `beta` times as much. -/
def fbetaScore (beta : ℚ) (tp fp fn : ℕ) : ℚ :=
  ((1 + beta * beta) * tp) / ((1 + beta * beta) * tp + beta * beta * fn + fp)

/-- The scorer the script passes to the tuner on line 82. -/
def scriptScorer (tp fp fn : ℕ) : ℚ := fbetaScore scorerBeta tp fp fn

/-- Selection performed by `tuner.get_best_hyperparameters()[0]` (line 90)
for a `"max"` objective, over the trials the oracle ran: keep the
highest-scoring trial seen.  This models the documented behavior of the
keras-tuner oracle, which sorts completed trials by score (descending for a
maximized objective) and returns the first. -/
def pickBetter (score : Nat → ℚ) (acc : Option Nat) (t : Nat) : Option Nat :=
  match acc with
  | none => some t
  | some b => if score b < score t then some t else some b

/-- Fold `pickBetter` over the trials the oracle completed. -/
def getBestTrial (score : Nat → ℚ) (trials : List Nat) : Option Nat :=
  trials.foldl (pickBetter score) none

/-- `sd` is a genuine standard-deviation oracle for every column of `ds`:
its value on each column squares to the column's sample variance (a run of
the script on `ds` draws `sd` from `pandas.DataFrame.std`, which satisfies
this whenever the variances are nonnegative, as they always are). -/
def IsStd (sd : List ℚ → ℚ) (ds : DataFrame) : Prop :=
  ∀ c ∈ ds.cols, sd c.2 * sd c.2 = colVar c.2

/-! ### Concrete data used by witnesses and counterexamples -/

/-- A binary label column: nine samples, one positive.  Its sample variance
is `1*8/(9*8) = 1/9`, an exact rational square. -/
def eCol : List ℚ := [1, 0, 0, 0, 0, 0, 0, 0, 0]

/-- A feature column with sample variance `1`. -/
def tCol : List ℚ := [3, 0, 0, 0, 0, 0, 0, 0, 0]

/-- A feature column with sample mean `2/3` and sample variance `4`. -/
def fCol : List ℚ := [6, 0, 0, 0, 0, 0, 0, 0, 0]

/-- A concrete parsed CSV holding exactly the six columns that lines 18-23
reassign. -/
def cDS : DataFrame :=
  ⟨[("Class", eCol), ("Length", tCol), ("TFIDF_H", tCol), ("TFIDF_S", tCol),
    ("TFIDF_J", tCol), ("Z_Length", tCol)]⟩

/-- An exact standard-deviation oracle for the columns of `cDS`. -/
def cSD : List ℚ → ℚ := fun xs => if xs = eCol then 1/3 else 1

/-- `cDS` extended with one genuinely normalized feature column `"F1"`. -/
def cDS1 : DataFrame :=
  ⟨[("Class", eCol), ("Length", tCol), ("TFIDF_H", tCol), ("TFIDF_S", tCol),
    ("TFIDF_J", tCol), ("Z_Length", tCol), ("F1", fCol)]⟩

/-- The standard deviation of `fCol`, as a constant oracle. -/
def cSD1 : List ℚ → ℚ := fun _ => 2

/-- A run environment: `cDS` on disk as the CSV, no cached model, identity
permutation, a search that produces model `9`. -/
def baseInput : Input :=
  { csv := Except.ok cDS, modelFile := none, sd := fun _ => 1,
    rng := fun _ n => List.range n, searchFit := fun _ _ => Except.ok ⟨9⟩,
    args := [], env := fun _ => none }

/-- `baseInput` with a cached `RandomForestClassifier` in `model.sav`. -/
def inputCached : Input :=
  { baseInput with modelFile := some (Except.ok (PickleObj.rfc ⟨5⟩)) }

/-- `baseInput` with `model.sav` present but unpickling to a foreign object. -/
def inputOther : Input :=
  { baseInput with modelFile := some (Except.ok (PickleObj.other 0)) }

/-- `baseInput` with `model.sav` present but raising a non-`FileNotFoundError`
exception during unpickling. -/
def inputBadPickle : Input :=
  { baseInput with modelFile := some (Except.error PyExc.libraryError) }

/-- `baseInput` with a CSV whose parse raises. -/
def inputCsvErr : Input :=
  { baseInput with csv := Except.error PyExc.parserError }

/-- `baseInput` with a CSV that lacks the `"Class"` column. -/
def inputNoClass : Input :=
  { baseInput with csv := Except.ok ⟨[("A", [1, 2])]⟩ }

/-- `baseInput` with a hyperparameter search that raises a library
exception. -/
def inputSearchErr : Input :=
  { baseInput with searchFit := fun _ _ => Except.error PyExc.libraryError }

/-- A one-column six-row feature frame. -/
def X6 : DataFrame := ⟨[("A", [0, 1, 2, 3, 4, 5])]⟩

/-- A six-row label frame. -/
def y6 : DataFrame := ⟨[("Class", [0, 1, 0, 1, 0, 1])]⟩

/-- A permutation of `range 6` as a seeded RNG could draw it. -/
def perm6 : List Nat := [5, 0, 3, 1, 2, 4]

/-! ### Lemmas about dataframe primitives -/

lemma requireCol_ok_iff {df : DataFrame} {k : String} {xs : List ℚ} :
    requireCol df k = Except.ok xs ↔ getCol? df k = some xs := by
  unfold requireCol
  cases h : getCol? df k <;> simp

lemma getCol?_normalizeAll (sd : List ℚ → ℚ) (ds : DataFrame) (k : String) :
    getCol? (normalizeAll sd ds) k
      = (getCol? ds k).map (fun xs => xs.map (fun x => (x - colMean xs) / sd xs)) := by
  unfold getCol? normalizeAll
  rw [List.find?_map]
  have hpf : ((fun c : String × List ℚ => c.1 == k) ∘
      (fun c : String × List ℚ => (c.1, c.2.map (fun x => (x - colMean c.2) / sd c.2))))
      = (fun c : String × List ℚ => c.1 == k) := by
    funext c
    rfl
  rw [hpf]
  cases ds.cols.find? (fun c => c.1 == k) <;> rfl

lemma find?_set_self {l : List (String × List ℚ)} {k : String} (xs : List ℚ)
    (h : l.any (fun c => c.1 == k) = true) :
    (l.map (fun c => if c.1 == k then (k, xs) else c)).find? (fun c => c.1 == k)
      = some (k, xs) := by
  rw [List.find?_map]
  have hpf : ((fun c : String × List ℚ => c.1 == k) ∘
      (fun c : String × List ℚ => if c.1 == k then (k, xs) else c))
      = (fun c : String × List ℚ => c.1 == k) := by
    funext c
    by_cases hc : c.1 = k
    · simp [Function.comp, hc]
    · simp [Function.comp, hc]
  rw [hpf]
  obtain ⟨c0, hmem, hp⟩ := List.any_eq_true.mp h
  have hs : (l.find? (fun c : String × List ℚ => c.1 == k)).isSome :=
    List.find?_isSome.mpr ⟨c0, hmem, hp⟩
  obtain ⟨c1, hf⟩ := Option.isSome_iff_exists.mp hs
  have hp1 := List.find?_some hf
  rw [hf]
  have hc1 : c1.1 = k := by simpa using hp1
  simp [hc1]

lemma find?_append_right_of_none {l m : List (String × List ℚ)}
    {p : (String × List ℚ) → Bool} (h : l.find? p = none) :
    (l ++ m).find? p = m.find? p := by
  induction l with
  | nil => rfl
  | cons c t ih =>
    rw [List.find?_cons] at h
    rw [List.cons_append, List.find?_cons]
    cases hc : p c with
    | true =>
      rw [hc] at h
      exact Option.noConfusion h
    | false =>
      rw [hc] at h
      exact ih h

lemma getCol?_setCol_self (df : DataFrame) (k : String) (xs : List ℚ) :
    getCol? (setCol df k xs) k = some xs := by
  unfold getCol? setCol
  by_cases h : df.cols.any (fun c => c.1 == k) = true
  · rw [if_pos h]
    show ((df.cols.map _).find? _).map _ = _
    rw [find?_set_self xs h]
    rfl
  · rw [if_neg h]
    show ((df.cols ++ [(k, xs)]).find? _).map _ = _
    rw [find?_append_right_of_none (List.find?_eq_none.mpr ?_)]
    · simp [List.find?_cons]
    · intro c hc
      have := (List.any_eq_false.mp (Bool.not_eq_true _ ▸ h)) c hc
      simpa using this

lemma find?_set_ne {l : List (String × List ℚ)} {k j : String} (xs : List ℚ)
    (hjk : j ≠ k) :
    (l.map (fun c => if c.1 == k then (k, xs) else c)).find? (fun c => c.1 == j)
      = l.find? (fun c => c.1 == j) := by
  rw [List.find?_map]
  have hpf : ((fun c : String × List ℚ => c.1 == j) ∘
      (fun c : String × List ℚ => if c.1 == k then (k, xs) else c))
      = (fun c : String × List ℚ => c.1 == j) := by
    funext c
    by_cases hc : c.1 = k
    · have : ¬ (k = j) := fun hq => hjk hq.symm
      simp [Function.comp, hc, this]
    · simp [Function.comp, hc]
  rw [hpf]
  cases hf : l.find? (fun c => c.1 == j) with
  | none => rfl
  | some c0 =>
    have hp0 := List.find?_some hf
    have hc0 : c0.1 = j := by simpa using hp0
    have : ¬ (c0.1 = k) := by
      rw [hc0]
      exact hjk
    simp [this]

lemma find?_append_single_ne {k j : String} (xs : List ℚ) (hjk : j ≠ k)
    (l : List (String × List ℚ)) :
    (l ++ [(k, xs)]).find? (fun c => c.1 == j) = l.find? (fun c => c.1 == j) := by
  induction l with
  | nil =>
    have : ¬ (k = j) := fun hq => hjk hq.symm
    simp [List.find?_cons, this]
  | cons c t ih =>
    rw [List.cons_append, List.find?_cons, List.find?_cons]
    cases hj : (c.1 == j) with
    | true => rfl
    | false => exact ih

lemma getCol?_setCol_ne (df : DataFrame) {k j : String} (xs : List ℚ)
    (hjk : j ≠ k) : getCol? (setCol df k xs) j = getCol? df j := by
  unfold getCol? setCol
  by_cases h : df.cols.any (fun c => c.1 == k) = true
  · rw [if_pos h]
    show ((df.cols.map _).find? _).map _ = _
    rw [find?_set_ne xs hjk]
  · rw [if_neg h]
    show ((df.cols ++ [(k, xs)]).find? _).map _ = _
    rw [find?_append_single_ne xs hjk]

/-! ### Mean and variance of a z-scored column -/

lemma sum_map_div (xs : List ℚ) (c : ℚ) :
    (xs.map (fun x => x / c)).sum = xs.sum / c := by
  induction xs with
  | nil => simp
  | cons a t ih => simp [ih, add_div]

lemma sum_map_sub (xs : List ℚ) (a : ℚ) :
    (xs.map (fun x => x - a)).sum = xs.sum - (xs.length : ℚ) * a := by
  induction xs with
  | nil => simp
  | cons b t ih =>
    simp only [List.map_cons, List.sum_cons, ih, List.length_cons]
    push_cast
    ring

lemma colMean_def (xs : List ℚ) : colMean xs = xs.sum / (xs.length : ℚ) := rfl

lemma colMean_zscore (xs : List ℚ) (s : ℚ) :
    colMean (xs.map (fun x => (x - colMean xs) / s)) = 0 := by
  cases xs with
  | nil => simp [colMean]
  | cons a t =>
    have hn0 : (((a :: t).length : ℚ)) ≠ 0 := by
      rw [List.length_cons]
      push_cast
      positivity
    have hsplit : (a :: t).map (fun x => (x - colMean (a :: t)) / s)
        = ((a :: t).map (fun x => x - colMean (a :: t))).map (fun y => y / s) := by
      rw [List.map_map]
      rfl
    rw [colMean_def, hsplit, sum_map_div, sum_map_sub, List.length_map,
      List.length_map, colMean_def, mul_comm (((a :: t).length : ℚ)),
      div_mul_cancel₀ _ hn0, sub_self, zero_div, zero_div]

lemma colVar_zscore (xs : List ℚ) (s : ℚ) (hs : s * s = colVar xs)
    (hv : colVar xs ≠ 0) :
    colVar (xs.map (fun x => (x - colMean xs) / s)) = 1 := by
  have hmz := colMean_zscore xs s
  unfold colVar
  rw [hmz]
  simp only [sub_zero, List.map_map, List.length_map]
  have hfun : ∀ x ∈ xs,
      ((fun y => y * y) ∘ (fun x => (x - colMean xs) / s)) x
        = ((x - colMean xs) * (x - colMean xs)) / (s * s) := by
    intro x _
    exact div_mul_div_comm _ _ _ _
  rw [List.map_congr_left hfun,
    show (fun x => ((x - colMean xs) * (x - colMean xs)) / (s * s))
        = ((fun y => y / (s * s)) ∘ (fun x => (x - colMean xs) * (x - colMean xs)))
      from rfl,
    ← List.map_map, sum_map_div, div_right_comm]
  have hvar : (xs.map (fun x => (x - colMean xs) * (x - colMean xs))).sum
      / ((xs.length : ℚ) - 1) = colVar xs := rfl
  rw [hvar, hs, div_self hv]

/-! ### Inversion of the normalization step -/

lemma normalizeStep_ok_inv {sd : List ℚ → ℚ} {ds nds : DataFrame}
    (h : normalizeStep sd ds = Except.ok nds) :
    ∃ c l th ts tj z,
      getCol? ds "Class" = some c ∧ getCol? ds "Length" = some l ∧
      getCol? ds "TFIDF_H" = some th ∧ getCol? ds "TFIDF_S" = some ts ∧
      getCol? ds "TFIDF_J" = some tj ∧ getCol? ds "Z_Length" = some z ∧
      nds = setCol (setCol (setCol (setCol (setCol (setCol
        (normalizeAll sd ds) "Class" c) "Length" l) "TFIDF_H" th)
        "TFIDF_S" ts) "TFIDF_J" tj) "Z_Length" z := by
  unfold normalizeStep at h
  split at h
  · exact Except.noConfusion h
  next hc =>
  split at h
  · exact Except.noConfusion h
  next hl =>
  split at h
  · exact Except.noConfusion h
  next hth =>
  split at h
  · exact Except.noConfusion h
  next hts =>
  split at h
  · exact Except.noConfusion h
  next htj =>
  split at h
  · exact Except.noConfusion h
  next hz =>
    refine ⟨_, _, _, _, _, _, requireCol_ok_iff.mp hc, requireCol_ok_iff.mp hl,
      requireCol_ok_iff.mp hth, requireCol_ok_iff.mp hts,
      requireCol_ok_iff.mp htj, requireCol_ok_iff.mp hz, ?_⟩
    exact (Except.ok.injEq _ _ ▸ h).symm

/-! ### Inversion of the model load and of a whole run -/

lemma loadModel_ok_rfc_iff {mf : Option (Except PyExc PickleObj)}
    {loaded : Option PickleObj} (h : loadModel mf = Except.ok loaded) :
    isRFC loaded = true ↔ ∃ m, mf = some (Except.ok (PickleObj.rfc m)) := by
  cases mf with
  | none =>
    unfold loadModel at h
    cases h
    simp [isRFC]
  | some x =>
    cases x with
    | ok v =>
      simp only [loadModel] at h
      cases h
      cases v with
      | rfc m => simp [isRFC]
      | other t => simp [isRFC]
    | error e =>
      simp only [loadModel] at h
      by_cases he : e = PyExc.fileNotFound
      · rw [if_pos he] at h
        cases h
        simp [isRFC]
      · rw [if_neg he] at h
        exact Except.noConfusion h

lemma runCore_ok_inv {csv : Except PyExc DataFrame}
    {modelFile : Option (Except PyExc PickleObj)} {sd : List ℚ → ℚ}
    {rng : Nat → Nat → List Nat}
    {searchFit : DataFrame → DataFrame → Except PyExc RandomForestClassifier}
    {r : RunResult}
    (h : runCore csv modelFile sd rng searchFit = Except.ok r) :
    ∃ p loaded, prepareCore csv sd rng = Except.ok p ∧
      loadModel modelFile = Except.ok loaded ∧
      ((isRFC loaded = true ∧ r = mkResult modelFile p false (theRFC loaded)) ∨
       (isRFC loaded = false ∧ ∃ m, searchFit p.Xtr p.ytr = Except.ok m ∧
          r = mkResult modelFile p true m)) := by
  unfold runCore at h
  split at h
  · exact Except.noConfusion h
  next p hp =>
  split at h
  · exact Except.noConfusion h
  next loaded hl =>
  by_cases hrfc : isRFC loaded = true
  · rw [if_pos hrfc] at h
    cases h
    exact ⟨p, loaded, hp, hl, Or.inl ⟨hrfc, rfl⟩⟩
  · rw [if_neg hrfc] at h
    split at h
    · exact Except.noConfusion h
    next m hm =>
      cases h
      exact ⟨p, loaded, hp, hl,
        Or.inr ⟨Bool.not_eq_true _ ▸ hrfc, m, hm, rfl⟩⟩

lemma runResultD_eq {inp : Input} {r : RunResult}
    (h : runScript inp = Except.ok r) : runResultD inp = r := by
  unfold runResultD
  rw [h]

lemma prepD_eq {inp : Input} {p : Prep} (h : prepare inp = Except.ok p) :
    prepD inp = p := by
  unfold prepD
  rw [h]

lemma isOkE_ok {inp : Input} (h : isOkE (runScript inp) = true) :
    runScript inp = Except.ok (runResultD inp) := by
  unfold isOkE at h
  unfold runResultD
  cases hr : runScript inp with
  | ok r => rfl
  | error e =>
    rw [hr] at h
    exact Bool.noConfusion h

lemma prepOk_ok {inp : Input} (h : prepOk inp = true) :
    prepare inp = Except.ok (prepD inp) := by
  unfold prepOk at h
  unfold prepD
  cases hr : prepare inp with
  | ok p => rfl
  | error e =>
    rw [hr] at h
    exact Bool.noConfusion h

/-! ### Projections of `mkResult` -/

lemma mkResult_searchRan (mf : Option (Except PyExc PickleObj)) (p : Prep)
    (b : Bool) (m : RandomForestClassifier) :
    (mkResult mf p b m).searchRan = b := rfl

lemma mkResult_bestModel (mf : Option (Except PyExc PickleObj)) (p : Prep)
    (b : Bool) (m : RandomForestClassifier) :
    (mkResult mf p b m).bestModel = m := rfl

lemma mkResult_y (mf : Option (Except PyExc PickleObj)) (p : Prep)
    (b : Bool) (m : RandomForestClassifier) :
    (mkResult mf p b m).y = p.y := rfl

lemma mkResult_normalized (mf : Option (Except PyExc PickleObj)) (p : Prep)
    (b : Bool) (m : RandomForestClassifier) :
    (mkResult mf p b m).normalized = p.nds := rfl

lemma mkResult_writes (mf : Option (Except PyExc PickleObj)) (p : Prep)
    (b : Bool) (m : RandomForestClassifier) :
    (mkResult mf p b m).writes = if mf.isNone then [m] else [] := rfl

lemma mkResult_finalFile (mf : Option (Except PyExc PickleObj)) (p : Prep)
    (b : Bool) (m : RandomForestClassifier) :
    (mkResult mf p b m).finalFile
      = if mf.isNone then some (Except.ok (PickleObj.rfc m)) else mf := rfl

lemma mkResult_trace (mf : Option (Except PyExc PickleObj)) (p : Prep)
    (b : Bool) (m : RandomForestClassifier) :
    (mkResult mf p b m).trace
      = [Stage.readCSV, Stage.normalizeDS, Stage.splitDS]
        ++ (if b then [Stage.search, Stage.fit] else [])
        ++ [Stage.evaluate]
        ++ (if mf.isNone then [Stage.serialize] else []) := rfl

/-! ### Test partition size -/

lemma testCount_eq_ceil (n : ℕ) :
    testCount n = (Int.ceil (test_size * (n : ℚ))).toNat := by
  set m := (n + 4) / 5 with hm
  have h1 : 5 * m ≤ n + 4 := by omega
  have h2 : n + 4 < 5 * m + 5 := by omega
  have h3 : n ≤ 5 * m := by omega
  have hq1 : ((5 * m : ℕ) : ℚ) ≤ ((n + 4 : ℕ) : ℚ) := by exact_mod_cast h1
  have hq3 : ((n : ℕ) : ℚ) ≤ ((5 * m : ℕ) : ℚ) := by exact_mod_cast h3
  push_cast at hq1 hq3
  have hceil : Int.ceil (test_size * (n : ℚ)) = (m : ℤ) := by
    apply le_antisymm
    · apply Int.ceil_le.mpr
      unfold test_size
      push_cast
      linarith
    · apply Int.le_ceil_iff.mpr
      unfold test_size
      push_cast
      linarith
  rw [hceil, Int.toNat_natCast]
  unfold testCount
  omega

lemma testCount_le (n : ℕ) : testCount n ≤ n := by
  unfold testCount
  omega

lemma testCount_exact (n : ℕ) (h : 5 ∣ n) : (testCount n : ℚ) = test_size * n := by
  obtain ⟨m, rfl⟩ := h
  unfold testCount test_size
  have h5 : (5 * m + 4) / 5 = m := by omega
  rw [h5]
  push_cast
  ring

/-! ### Row selection -/

lemma selectRows_col_length (xs : List ℚ) (idxs : List Nat)
    (h : ∀ i ∈ idxs, i < xs.length) :
    (idxs.filterMap (fun i => xs.get? i)).length = idxs.length := by
  induction idxs with
  | nil => rfl
  | cons i t ih =>
    have hi : i < xs.length := h i (by simp)
    have hb : xs.get? i = some (xs.get ⟨i, hi⟩) := List.get?_eq_get hi
    rw [List.filterMap_cons_some hb, List.length_cons, List.length_cons,
      ih (fun j hj => h j (List.mem_cons_of_mem _ hj))]

/-! ### The tuner's selection is an argmax over the completed trials -/

lemma pickBetter_fold_spec (score : Nat → ℚ) :
    ∀ (l : List Nat) (acc : Option Nat) (b : Nat),
      l.foldl (pickBetter score) acc = some b →
      (acc = some b ∨ b ∈ l) ∧ (∀ t ∈ l, score t ≤ score b) ∧
      (∀ a, acc = some a → score a ≤ score b) := by
  intro l
  induction l with
  | nil =>
    intro acc b h
    rw [List.foldl_nil] at h
    exact ⟨Or.inl h, by simp, fun a ha => by
      rw [h] at ha
      cases ha
      exact le_refl _⟩
  | cons t ts ih =>
    intro acc b h
    rw [List.foldl_cons] at h
    cases acc with
    | none =>
      have hstep : pickBetter score none t = some t := rfl
      rw [hstep] at h
      obtain ⟨h1, h2, h3⟩ := ih (some t) b h
      refine ⟨?_, ?_, ?_⟩
      · rcases h1 with h1 | h1
        · cases h1
          exact Or.inr (by simp)
        · exact Or.inr (List.mem_cons_of_mem _ h1)
      · intro u hu
        rcases List.mem_cons.mp hu with rfl | hut
        · exact h3 u rfl
        · exact h2 u hut
      · intro a ha
        exact Option.noConfusion ha
    | some a0 =>
      by_cases hlt : score a0 < score t
      · have hstep : pickBetter score (some a0) t = some t := by
          simp only [pickBetter, if_pos hlt]
        rw [hstep] at h
        obtain ⟨h1, h2, h3⟩ := ih (some t) b h
        refine ⟨?_, ?_, ?_⟩
        · rcases h1 with h1 | h1
          · cases h1
            exact Or.inr (by simp)
          · exact Or.inr (List.mem_cons_of_mem _ h1)
        · intro u hu
          rcases List.mem_cons.mp hu with rfl | hut
          · exact h3 u rfl
          · exact h2 u hut
        · intro a ha
          cases ha
          exact le_trans (le_of_lt hlt) (h3 t rfl)
      · have hstep : pickBetter score (some a0) t = some a0 := by
          simp only [pickBetter, if_neg hlt]
        rw [hstep] at h
        obtain ⟨h1, h2, h3⟩ := ih (some a0) b h
        refine ⟨?_, ?_, ?_⟩
        · rcases h1 with h1 | h1
          · exact Or.inl h1
          · exact Or.inr (List.mem_cons_of_mem _ h1)
        · intro u hu
          rcases List.mem_cons.mp hu with rfl | hut
          · exact le_trans (le_of_not_lt hlt) (h3 a0 rfl)
          · exact h2 u hut
        · intro a ha
          cases ha
          exact h3 a0 rfl

lemma getBestTrial_argmax {score : Nat → ℚ} {trials : List Nat} {b : Nat}
    (h : getBestTrial score trials = some b) :
    b ∈ trials ∧ ∀ t ∈ trials, score t ≤ score b := by
  obtain ⟨h1, h2, _⟩ := pickBetter_fold_spec score trials none b h
  rcases h1 with h1 | h1
  · exact Option.noConfusion h1
  · exact ⟨h1, h2⟩

lemma foldl_pickBetter_some (score : Nat → ℚ) :
    ∀ (l : List Nat) (x : Nat), ∃ y, l.foldl (pickBetter score) (some x) = some y := by
  intro l
  induction l with
  | nil => exact fun x => ⟨x, rfl⟩
  | cons t ts ih =>
    intro x
    rw [List.foldl_cons]
    by_cases hlt : score x < score t
    · rw [show pickBetter score (some x) t = some t from by
        simp only [pickBetter, if_pos hlt]]
      exact ih t
    · rw [show pickBetter score (some x) t = some x from by
        simp only [pickBetter, if_neg hlt]]
      exact ih x

lemma getBestTrial_isSome {score : Nat → ℚ} {trials : List Nat}
    (h : trials ≠ []) : (getBestTrial score trials).isSome = true := by
  cases trials with
  | nil => exact absurd rfl h
  | cons t ts =>
    unfold getBestTrial
    rw [List.foldl_cons]
    obtain ⟨y, hy⟩ := foldl_pickBetter_some score ts t
    rw [show pickBetter score none t = some t from rfl, hy]
    rfl

/-! ### Further inversion helpers -/

lemma isOkN_ok {sd : List ℚ → ℚ} {ds : DataFrame}
    (h : isOkN (normalizeStep sd ds) = true) :
    normalizeStep sd ds = Except.ok (normalizeD sd ds) := by
  unfold isOkN at h
  unfold normalizeD
  cases hr : normalizeStep sd ds with
  | ok d => rfl
  | error e =>
    rw [hr] at h
    exact Bool.noConfusion h

lemma normalizeD_eq {sd : List ℚ → ℚ} {ds nds : DataFrame}
    (h : normalizeStep sd ds = Except.ok nds) : normalizeD sd ds = nds := by
  unfold normalizeD
  rw [h]

lemma prepOk_core {inp : Input} (h : prepOk inp = true) :
    prepareCore inp.csv inp.sd inp.rng = Except.ok (prepD inp) :=
  prepOk_ok h

/-- The six reassigned columns of the normalized dataframe carry their raw
values from the input dataframe. -/
lemma normalizeStep_restored {sd : List ℚ → ℚ} {ds nds : DataFrame}
    (h : normalizeStep sd ds = Except.ok nds) :
    ∀ k ∈ restoredCols, getCol? nds k = getCol? ds k := by
  obtain ⟨c, l, th, ts, tj, z, hC, hL, hTH, hTS, hTJ, hZ, hnds⟩ :=
    normalizeStep_ok_inv h
  intro k hk
  rw [hnds]
  simp only [restoredCols, List.mem_cons, List.not_mem_nil, or_false] at hk
  rcases hk with rfl | rfl | rfl | rfl | rfl | rfl
  · rw [getCol?_setCol_ne _ _ (by decide), getCol?_setCol_ne _ _ (by decide),
      getCol?_setCol_ne _ _ (by decide), getCol?_setCol_ne _ _ (by decide),
      getCol?_setCol_ne _ _ (by decide), getCol?_setCol_self, hC]
  · rw [getCol?_setCol_ne _ _ (by decide), getCol?_setCol_ne _ _ (by decide),
      getCol?_setCol_ne _ _ (by decide), getCol?_setCol_ne _ _ (by decide),
      getCol?_setCol_self, hL]
  · rw [getCol?_setCol_ne _ _ (by decide), getCol?_setCol_ne _ _ (by decide),
      getCol?_setCol_ne _ _ (by decide), getCol?_setCol_self, hTH]
  · rw [getCol?_setCol_ne _ _ (by decide), getCol?_setCol_ne _ _ (by decide),
      getCol?_setCol_self, hTS]
  · rw [getCol?_setCol_ne _ _ (by decide), getCol?_setCol_self, hTJ]
  · rw [getCol?_setCol_self, hZ]

/-- A column not among the six reassigned ones is exactly the z-scored
original column. -/
lemma normalizeStep_zscored {sd : List ℚ → ℚ} {ds nds : DataFrame}
    {k : String} {xs : List ℚ} (h : normalizeStep sd ds = Except.ok nds)
    (hk : k ∉ restoredCols) (hx : getCol? ds k = some xs) :
    getCol? nds k = some (xs.map (fun x => (x - colMean xs) / sd xs)) := by
  obtain ⟨c, l, th, ts, tj, z, hC, hL, hTH, hTS, hTJ, hZ, hnds⟩ :=
    normalizeStep_ok_inv h
  simp only [restoredCols, List.mem_cons, List.not_mem_nil, or_false,
    not_or] at hk
  obtain ⟨h1, h2, h3, h4, h5, h6⟩ := hk
  rw [hnds, getCol?_setCol_ne _ _ h6, getCol?_setCol_ne _ _ h5,
    getCol?_setCol_ne _ _ h4, getCol?_setCol_ne _ _ h3,
    getCol?_setCol_ne _ _ h2, getCol?_setCol_ne _ _ h1,
    getCol?_normalizeAll, hx]
  rfl

lemma selectCols_class {df y0 : DataFrame}
    (h : selectCols df ["Class"] = Except.ok y0) :
    ∃ xs, getCol? df "Class" = some xs ∧ y0 = ⟨[("Class", xs)]⟩ := by
  unfold selectCols at h
  cases hc : getCol? df "Class" with
  | none =>
    rw [show colsFor df ["Class"] = Except.error (PyExc.keyError "Class") from by
      unfold colsFor
      rw [hc]] at h
    exact Except.noConfusion h
  | some xs =>
    rw [show colsFor df ["Class"] = Except.ok [("Class", xs)] from by
      unfold colsFor
      rw [hc]
      rfl] at h
    cases h
    exact ⟨xs, rfl, rfl⟩

/-- The save of lines 99-101 writes at most once, only when the file was
absent, and leaves a present file untouched. -/
lemma mkResult_save_spec (mf : Option (Except PyExc PickleObj)) (p : Prep)
    (b : Bool) (m : RandomForestClassifier) :
    (mkResult mf p b m).writes.length ≤ 1 ∧
    (∀ x, mf = some x →
      (mkResult mf p b m).finalFile = some x ∧ (mkResult mf p b m).writes = []) ∧
    ((mkResult mf p b m).writes ≠ [] → mf = none) := by
  rw [mkResult_writes, mkResult_finalFile]
  cases mf with
  | none => exact ⟨by simp, fun x hx => Option.noConfusion hx, fun _ => rfl⟩
  | some x0 =>
    refine ⟨by simp [Option.isNone], ?_, ?_⟩
    · intro x hx
      cases hx
      exact ⟨by simp [Option.isNone], by simp [Option.isNone]⟩
    · intro hw
      exact absurd (by simp [Option.isNone]) hw

lemma loadModel_some_other {mf : Option (Except PyExc PickleObj)}
    {loaded : Option PickleObj} {t : Nat}
    (hM : mf = some (Except.ok (PickleObj.other t)))
    (hl : loadModel mf = Except.ok loaded) : loaded = some (PickleObj.other t) := by
  rw [hM] at hl
  simp only [loadModel] at hl
  cases hl
  rfl

lemma loadModel_rfc_ne_none {mf : Option (Except PyExc PickleObj)}
    {loaded : Option PickleObj} (hl : loadModel mf = Except.ok loaded)
    (hrfc : isRFC loaded = true) : mf.isNone = false := by
  cases mf with
  | some x => rfl
  | none =>
    simp only [loadModel] at hl
    cases hl
    exact Bool.noConfusion hrfc

/-! ### Claim C1 -/

/-- C1: the claim "after the normalization step every column of the
normalized dataset has zero mean and unit variance" is false for the code:
lines 18-23 reassign the six columns `Class`, `Length`, `TFIDF_H`,
`TFIDF_S`, `TFIDF_J`, `Z_Length` back to their raw values, so on the
concrete dataset `cDS` (whose column standard deviations `cSD` are exact
rationals) the normalization step succeeds yet returns the raw `Class`
column `eCol`, whose mean is `1/9`, not `0`. -/
theorem C1_counterexample :
    IsStd cSD cDS ∧ normalizeStep cSD cDS = Except.ok cDS ∧
    ("Class", eCol) ∈ cDS.cols ∧ ¬(colMean eCol = 0 ∧ colVar eCol = 1) := by
  refine ⟨?_, rfl, List.mem_cons_self _ _, ?_⟩
  · intro c hc
    simp only [cDS, List.mem_cons, List.not_mem_nil, or_false] at hc
    rcases hc with rfl | rfl | rfl | rfl | rfl | rfl <;>
      norm_num [cSD, colVar, colMean, eCol, tCol]
  · intro hcon
    have h0 := hcon.1
    norm_num [colMean, eCol] at h0

/-- C1 (amended): after the normalization step, every column NOT among the
six reassigned ones (`Class`, `Length`, `TFIDF_H`, `TFIDF_S`, `TFIDF_J`,
`Z_Length`) is the z-scored original column and has zero mean and unit
sample variance, provided the column's sample variance is nonzero and the
standard deviation used squares to that variance. -/
theorem C1_amended (sd : List ℚ → ℚ) (ds : DataFrame) (k : String)
    (xs : List ℚ) (hok : isOkN (normalizeStep sd ds) = true)
    (hk : k ∉ restoredCols) (hx : getCol? ds k = some xs)
    (hsd : sd xs * sd xs = colVar xs) (hv : colVar xs ≠ 0) :
    getCol? (normalizeD sd ds) k
        = some (xs.map (fun x => (x - colMean xs) / sd xs)) ∧
    colMean (xs.map (fun x => (x - colMean xs) / sd xs)) = 0 ∧
    colVar (xs.map (fun x => (x - colMean xs) / sd xs)) = 1 :=
  ⟨normalizeStep_zscored (isOkN_ok hok) hk hx,
   colMean_zscore xs (sd xs), colVar_zscore xs (sd xs) hsd hv⟩

lemma cSD1_sq : cSD1 fCol * cSD1 fCol = colVar fCol := by
  norm_num [cSD1, colVar, colMean, fCol]

lemma fCol_var_ne : colVar fCol ≠ 0 := by
  norm_num [colVar, colMean, fCol]

/-- Witness for `C1_amended` at the concrete frame `cDS1` and its feature
column `"F1"`. -/
theorem C1_amended_witness :
    isOkN (normalizeStep cSD1 cDS1) = true ∧ "F1" ∉ restoredCols ∧
    getCol? cDS1 "F1" = some fCol ∧ cSD1 fCol * cSD1 fCol = colVar fCol ∧
    colVar fCol ≠ 0 ∧
    (getCol? (normalizeD cSD1 cDS1) "F1"
        = some (fCol.map (fun x => (x - colMean fCol) / cSD1 fCol)) ∧
     colMean (fCol.map (fun x => (x - colMean fCol) / cSD1 fCol)) = 0 ∧
     colVar (fCol.map (fun x => (x - colMean fCol) / cSD1 fCol)) = 1) :=
  ⟨by decide, by decide, rfl, cSD1_sq, fCol_var_ne,
   C1_amended cSD1 cDS1 "F1" fCol (by decide) (by decide) rfl cSD1_sq fCol_var_ne⟩

lemma isRFC_none : isRFC none = false := rfl

lemma loadModel_none : loadModel none = Except.ok none := rfl

/-! ### Claim C2 -/

/-- C2: the claim "the hyperparameter search stage is skipped if and only if
a valid cached model file exists, and that validity is decided by a two-line
check of the model file's existence" is false for the code: on `inputOther`
the model file exists (and loads without error) yet the search runs, because
line 74 additionally requires the unpickled object to be a
`RandomForestClassifier`. -/
theorem C2_counterexample :
    searchRanOf (runScript inputOther) = some true ∧
    inputOther.modelFile.isSome = true := by
  exact ⟨by decide, rfl⟩

/-- C2 (amended): the hyperparameter search stage is skipped if and only if
the model file exists and unpickles to a `RandomForestClassifier`; mere
existence of the file is not sufficient (the two-line existence check of
lines 100-101 guards only the save, not the skip). -/
theorem C2_amended (inp : Input) (b : Bool)
    (h : searchRanOf (runScript inp) = some b) :
    b = false ↔ ∃ m, inp.modelFile = some (Except.ok (PickleObj.rfc m)) := by
  cases hr : runScript inp with
  | error e =>
    unfold searchRanOf at h
    rw [hr] at h
    exact Option.noConfusion h
  | ok r =>
    unfold searchRanOf at h
    rw [hr] at h
    have hb : b = r.searchRan := (Option.some.injEq _ _ ▸ h).symm
    obtain ⟨p, loaded, hp, hl, hcase⟩ := runCore_ok_inv hr
    rcases hcase with ⟨hrfc, hres⟩ | ⟨hnot, m, hm, hres⟩
    · have hsr : r.searchRan = false := by rw [hres, mkResult_searchRan]
      rw [hb, hsr]
      constructor
      · intro _
        exact (loadModel_ok_rfc_iff hl).mp hrfc
      · intro _
        rfl
    · have hsr : r.searchRan = true := by rw [hres, mkResult_searchRan]
      rw [hb, hsr]
      constructor
      · intro hfalse
        exact Bool.noConfusion hfalse
      · intro hex
        have hyes := (loadModel_ok_rfc_iff hl).mpr hex
        rw [hnot] at hyes
        exact Bool.noConfusion hyes

/-- Witness for `C2_amended` at `inputCached`, whose model file holds a
cached `RandomForestClassifier`: the search is skipped. -/
theorem C2_amended_witness :
    searchRanOf (runScript inputCached) = some false ∧
    (false = false ↔
      ∃ m, inputCached.modelFile = some (Except.ok (PickleObj.rfc m))) :=
  ⟨by decide, C2_amended inputCached false (by decide)⟩

/-! ### Claim C3 -/

/-- C3: the serialized model file is written only when absent: on a run
where `model.sav` is present at the save step its contents are unchanged
(the final file state equals the initial one and no write happens), and on
any run at most one write to `model.sav` is performed. -/
theorem C3_thm (inp : Input) (h : isOkE (runScript inp) = true) :
    (runResultD inp).writes.length ≤ 1 ∧
    (∀ x, inp.modelFile = some x →
      (runResultD inp).finalFile = some x ∧ (runResultD inp).writes = []) ∧
    ((runResultD inp).writes ≠ [] → inp.modelFile = none) := by
  have hr := isOkE_ok h
  obtain ⟨p, loaded, hp, hl, hcase⟩ := runCore_ok_inv hr
  rcases hcase with ⟨_, hres⟩ | ⟨_, m, _, hres⟩ <;>
    · rw [hres]
      exact mkResult_save_spec _ _ _ _

/-- Witness for `C3_thm` at `inputCached`, where the model file is present. -/
theorem C3_witness :
    isOkE (runScript inputCached) = true ∧
    ((runResultD inputCached).writes.length ≤ 1 ∧
     (∀ x, inputCached.modelFile = some x →
       (runResultD inputCached).finalFile = some x ∧
       (runResultD inputCached).writes = []) ∧
     ((runResultD inputCached).writes ≠ [] → inputCached.modelFile = none)) :=
  ⟨by decide, C3_thm inputCached (by decide)⟩

/-! ### Claim C4 -/

/-- C4: loading the cached model handles exactly one failure, the model file
not existing, by falling back to running the hyperparameter search; every
other exception propagates unhandled to the caller.  Conjuncts: (1) a CSV
read error propagates; (2) a missing `Class` column raises `KeyError`
unhandled; (3) a non-`FileNotFoundError` raised while unpickling propagates;
(4) a library exception raised by the search propagates; (5) an absent model
file is handled by running the search, not by raising. -/
theorem C4_thm :
    (∀ (inp : Input) (e : PyExc), inp.csv = Except.error e →
       runScript inp = Except.error e) ∧
    (∀ (inp : Input) (ds : DataFrame), inp.csv = Except.ok ds →
       getCol? ds "Class" = none →
       runScript inp = Except.error (PyExc.keyError "Class")) ∧
    (∀ (inp : Input) (e : PyExc), prepOk inp = true →
       inp.modelFile = some (Except.error e) → e ≠ PyExc.fileNotFound →
       runScript inp = Except.error e) ∧
    (∀ (inp : Input) (e : PyExc), prepOk inp = true → inp.modelFile = none →
       inp.searchFit (prepD inp).Xtr (prepD inp).ytr = Except.error e →
       runScript inp = Except.error e) ∧
    (∀ (inp : Input) (m : RandomForestClassifier), prepOk inp = true →
       inp.modelFile = none →
       inp.searchFit (prepD inp).Xtr (prepD inp).ytr = Except.ok m →
       runScript inp = Except.ok (mkResult inp.modelFile (prepD inp) true m) ∧
       (mkResult inp.modelFile (prepD inp) true m).searchRan = true) := by
  refine ⟨?_, ?_, ?_, ?_, ?_⟩
  · intro inp e h
    unfold runScript runCore
    rw [show prepareCore inp.csv inp.sd inp.rng = Except.error e from by
      unfold prepareCore
      rw [h]]
  · intro inp ds hcsv hclass
    have hreq : requireCol ds "Class" = Except.error (PyExc.keyError "Class") := by
      unfold requireCol
      rw [hclass]
    have hns : normalizeStep inp.sd ds
        = Except.error (PyExc.keyError "Class") := by
      unfold normalizeStep
      rw [hreq]
    have hp : prepareCore inp.csv inp.sd inp.rng
        = Except.error (PyExc.keyError "Class") := by
      simp only [prepareCore, hcsv, hns]
    unfold runScript runCore
    rw [hp]
  · intro inp e hprep hm hne
    have hp := prepOk_core hprep
    have hload : loadModel inp.modelFile = Except.error e := by
      rw [hm]
      simp only [loadModel, if_neg hne]
    simp only [runScript, runCore, hp, hload]
  · intro inp e hprep hm hsf
    have hp := prepOk_core hprep
    simp only [runScript, runCore, hp, hm, loadModel_none, isRFC_none,
      Bool.false_eq_true, if_false, hsf]
  · intro inp m hprep hm hsf
    have hp := prepOk_core hprep
    refine ⟨?_, rfl⟩
    simp only [runScript, runCore, hp, hm, loadModel_none, isRFC_none,
      Bool.false_eq_true, if_false, hsf]

/-- Witness for `C4_thm`: each conjunct exercised at a concrete run. -/
theorem C4_witness :
    runScript inputCsvErr = Except.error PyExc.parserError ∧
    runScript inputNoClass = Except.error (PyExc.keyError "Class") ∧
    runScript inputBadPickle = Except.error PyExc.libraryError ∧
    runScript inputSearchErr = Except.error PyExc.libraryError ∧
    runScript baseInput
      = Except.ok (mkResult baseInput.modelFile (prepD baseInput) true ⟨9⟩) :=
  ⟨C4_thm.1 inputCsvErr PyExc.parserError rfl,
   C4_thm.2.1 inputNoClass ⟨[("A", [1, 2])]⟩ rfl rfl,
   C4_thm.2.2.1 inputBadPickle PyExc.libraryError (by decide) rfl (by decide),
   C4_thm.2.2.2.1 inputSearchErr PyExc.libraryError (by decide) rfl rfl,
   (C4_thm.2.2.2.2 baseInput ⟨9⟩ (by decide) rfl rfl).1⟩

/-! ### Claim C5 -/

/-- C5: the hyperparameter search is configured to maximize a weighted
F-score: the objective of line 78 is `("score", "max")`, the scorer of
line 82 is the F-beta score with `beta = 2` (which weights recall four
times precision's weight: it equals `5*tp / (5*tp + 4*fn + fp)`), and the
selection of line 90 returns a completed trial whose score is maximal among
all completed trials (and some trial is always selected when any trial
completed). -/
theorem C5_thm :
    tunerObjective = { name := "score", direction := "max" } ∧
    scorerBeta = 2 ∧
    (∀ tp fp fn : ℕ, scriptScorer tp fp fn
        = (5 * (tp : ℚ)) / (5 * (tp : ℚ) + 4 * (fn : ℚ) + (fp : ℚ))) ∧
    (∀ (score : Nat → ℚ) (trials : List Nat) (b : Nat),
       getBestTrial score trials = some b →
       b ∈ trials ∧ ∀ t ∈ trials, score t ≤ score b) ∧
    (∀ (score : Nat → ℚ) (trials : List Nat), trials ≠ [] →
       (getBestTrial score trials).isSome = true) := by
  refine ⟨rfl, rfl, ?_, ?_, ?_⟩
  · intro tp fp fn
    unfold scriptScorer fbetaScore scorerBeta
    norm_num
  · intro score trials b h
    exact getBestTrial_argmax h
  · intro score trials h
    exact getBestTrial_isSome h

/-- Witness for `C5_thm` at a concrete singleton trial list and scorer
inputs. -/
theorem C5_witness :
    getBestTrial (fun _ => (0 : ℚ)) [5] = some 5 ∧ ([5] : List Nat) ≠ [] ∧
    (5 ∈ [5] ∧ ∀ t ∈ [5], (fun _ => (0 : ℚ)) t ≤ (fun _ => (0 : ℚ)) 5) ∧
    (getBestTrial (fun _ => (0 : ℚ)) [5]).isSome = true ∧
    scriptScorer 3 0 0 = (5 * (3 : ℚ)) / (5 * (3 : ℚ) + 4 * (0 : ℚ) + (0 : ℚ)) :=
  ⟨rfl, by decide, C5_thm.2.2.2.1 (fun _ => (0 : ℚ)) [5] 5 rfl,
   C5_thm.2.2.2.2 (fun _ => (0 : ℚ)) [5] (by decide),
   C5_thm.2.2.1 3 0 0⟩

/-! ### Claim C6 -/

/-- C6: the claim "on every run the script executes read, normalize, split,
search, fit, evaluate, serialize" is false for the code: on `inputCached`
(a cached `RandomForestClassifier` on disk) the run succeeds with trace
`[readCSV, normalizeDS, splitDS, evaluate]` — search, fit and serialize are
all skipped. -/
theorem C6_counterexample :
    traceOf (runScript inputCached)
      = [Stage.readCSV, Stage.normalizeDS, Stage.splitDS, Stage.evaluate] ∧
    traceOf (runScript inputCached) ≠ fullTrace := by
  exact ⟨by decide, by decide⟩

/-- C6 (amended): the stages a run executes always appear in the fixed
linear order read → normalize → split → search → fit → evaluate → serialize
with no stage repeated (the trace is a duplicate-free sublist of the full
order), and all seven stages execute exactly on runs where the model file is
absent. -/
theorem C6_amended (inp : Input) (h : isOkE (runScript inp) = true) :
    (runResultD inp).trace.Sublist fullTrace ∧ (runResultD inp).trace.Nodup ∧
    (inp.modelFile = none → (runResultD inp).trace = fullTrace) := by
  have hr := isOkE_ok h
  obtain ⟨p, loaded, hp, hl, hcase⟩ := runCore_ok_inv hr
  rcases hcase with ⟨hrfc, hres⟩ | ⟨hnot, m, hm, hres⟩
  · have habs : inp.modelFile.isNone = false := loadModel_rfc_ne_none hl hrfc
    rw [hres, mkResult_trace, habs]
    refine ⟨by decide, by decide, ?_⟩
    intro hmf
    rw [hmf] at habs
    exact Bool.noConfusion habs
  · by_cases habs : inp.modelFile.isNone = true
    · rw [hres, mkResult_trace, habs]
      exact ⟨by decide, by decide, fun _ => by decide⟩
    · rw [Bool.not_eq_true] at habs
      rw [hres, mkResult_trace, habs]
      refine ⟨by decide, by decide, ?_⟩
      intro hmf
      rw [hmf] at habs
      exact Bool.noConfusion habs

/-- Witness for `C6_amended` at `baseInput`, where the model file is absent
and the trace is the full seven-stage order. -/
theorem C6_amended_witness :
    isOkE (runScript baseInput) = true ∧
    ((runResultD baseInput).trace.Sublist fullTrace ∧
     (runResultD baseInput).trace.Nodup ∧
     (baseInput.modelFile = none → (runResultD baseInput).trace = fullTrace)) :=
  ⟨by decide, C6_amended baseInput (by decide)⟩

/-! ### Claim C7 -/

/-- C7: the input CSV path and the output model path are fixed relative
constants, and the run is invariant under the process command line and
environment: the script reads no CLI flags and no environment variables, so
two runs differing only in `args` and `env` behave identically. -/
theorem C7_thm :
    (∀ (inp : Input) (a1 a2 : List String) (e1 e2 : String → Option String),
       runScript { inp with args := a1, env := e1 }
         = runScript { inp with args := a2, env := e2 }) ∧
    csvPath = "data/features.csv" ∧ filename = "model.sav" :=
  ⟨fun _ _ _ _ _ => rfl, rfl, rfl⟩

lemma prepareCore_ok_inv {csv : Except PyExc DataFrame} {sd : List ℚ → ℚ}
    {rng : Nat → Nat → List Nat} {p : Prep}
    (h : prepareCore csv sd rng = Except.ok p) :
    ∃ ds nds y0 X0, csv = Except.ok ds ∧ normalizeStep sd ds = Except.ok nds ∧
      selectCols nds ["Class"] = Except.ok y0 ∧
      dropCol nds "Class" = Except.ok X0 ∧
      p.nds = nds ∧ p.y = y0 ∧ p.X = X0 := by
  unfold prepareCore at h
  split at h
  · exact Except.noConfusion h
  next d1 =>
  split at h
  · exact Except.noConfusion h
  next d2 hnds =>
  split at h
  · exact Except.noConfusion h
  next d3 hy0 =>
  split at h
  · exact Except.noConfusion h
  next d4 hX0 =>
    cases h
    exact ⟨d1, d2, d3, d4, rfl, hnds, hy0, hX0, rfl, rfl, rfl⟩

/-! ### Claim C8 -/

/-- C8: when the model file exists but unpickles to an object that is not a
`RandomForestClassifier`, the script runs the search and trains a fresh
model, evaluates it, yet never persists it: the search and fit stages run,
the trained model is exactly the search's output, the evaluate stage runs,
but the serialize stage does not, no write to `model.sav` happens, and the
stale file's content is unchanged at exit. -/
theorem C8_thm (inp : Input) (t : Nat)
    (hM : inp.modelFile = some (Except.ok (PickleObj.other t)))
    (h : isOkE (runScript inp) = true) :
    (runResultD inp).searchRan = true ∧
    Stage.search ∈ (runResultD inp).trace ∧
    Stage.fit ∈ (runResultD inp).trace ∧
    Stage.evaluate ∈ (runResultD inp).trace ∧
    Stage.serialize ∉ (runResultD inp).trace ∧
    inp.searchFit (prepD inp).Xtr (prepD inp).ytr
      = Except.ok (runResultD inp).bestModel ∧
    (runResultD inp).writes = [] ∧
    (runResultD inp).finalFile = inp.modelFile := by
  have hr := isOkE_ok h
  obtain ⟨p, loaded, hp, hl, hcase⟩ := runCore_ok_inv hr
  have hload := loadModel_some_other hM hl
  rcases hcase with ⟨hrfc, hres⟩ | ⟨hnot, m, hm, hres⟩
  · rw [hload] at hrfc
    exact Bool.noConfusion hrfc
  · have habs : inp.modelFile.isNone = false := by
      rw [hM]
      rfl
    refine ⟨?_, ?_, ?_, ?_, ?_, ?_, ?_, ?_⟩
    · rw [hres, mkResult_searchRan]
    · rw [hres, mkResult_trace, habs]
      decide
    · rw [hres, mkResult_trace, habs]
      decide
    · rw [hres, mkResult_trace, habs]
      decide
    · rw [hres, mkResult_trace, habs]
      decide
    · rw [prepD_eq hp, hres, mkResult_bestModel]
      exact hm
    · rw [hres, mkResult_writes, habs]
      rfl
    · rw [hres, mkResult_finalFile, habs]
      rfl

/-- Witness for `C8_thm` at `inputOther`, whose model file holds a foreign
pickled object. -/
theorem C8_witness :
    inputOther.modelFile = some (Except.ok (PickleObj.other 0)) ∧
    isOkE (runScript inputOther) = true ∧
    ((runResultD inputOther).searchRan = true ∧
     Stage.search ∈ (runResultD inputOther).trace ∧
     Stage.fit ∈ (runResultD inputOther).trace ∧
     Stage.evaluate ∈ (runResultD inputOther).trace ∧
     Stage.serialize ∉ (runResultD inputOther).trace ∧
     inputOther.searchFit (prepD inputOther).Xtr (prepD inputOther).ytr
       = Except.ok (runResultD inputOther).bestModel ∧
     (runResultD inputOther).writes = [] ∧
     (runResultD inputOther).finalFile = inputOther.modelFile) :=
  ⟨rfl, by decide, C8_thm inputOther 0 rfl (by decide)⟩

/-! ### Claim C9 -/

/-- C9: after the normalization step, the six columns `Class`, `Length`,
`TFIDF_H`, `TFIDF_S`, `TFIDF_J`, `Z_Length` of the normalized dataframe
equal their raw values from the input CSV; in particular the label frame
`y = normalized_ds[["Class"]]` used for splitting, training and evaluation
holds exactly the raw `Class` column. -/
theorem C9_thm :
    (∀ (sd : List ℚ → ℚ) (ds : DataFrame),
       isOkN (normalizeStep sd ds) = true →
       ∀ k ∈ restoredCols, getCol? (normalizeD sd ds) k = getCol? ds k) ∧
    (∀ (inp : Input) (ds : DataFrame), isOkE (runScript inp) = true →
       inp.csv = Except.ok ds →
       ∃ cls, getCol? ds "Class" = some cls ∧
         getCol? (runResultD inp).normalized "Class" = some cls ∧
         (runResultD inp).y = ⟨[("Class", cls)]⟩) := by
  constructor
  · intro sd ds hok
    exact normalizeStep_restored (isOkN_ok hok)
  · intro inp ds hok hcsv
    have hr := isOkE_ok hok
    obtain ⟨p, loaded, hp, hl, hcase⟩ := runCore_ok_inv hr
    obtain ⟨ds2, nds, y0, X0, hcsv2, hnds, hy0, hX0, hpnds, hpy, hpX⟩ :=
      prepareCore_ok_inv hp
    rw [hcsv] at hcsv2
    cases hcsv2
    obtain ⟨cls, hcls, hy0eq⟩ := selectCols_class hy0
    have hraw : getCol? nds "Class" = getCol? ds "Class" :=
      normalizeStep_restored hnds "Class" (by decide)
    have hnorm : (runResultD inp).normalized = nds := by
      rcases hcase with ⟨_, hres⟩ | ⟨_, m, _, hres⟩ <;>
        rw [hres, mkResult_normalized, hpnds]
    have hy : (runResultD inp).y = y0 := by
      rcases hcase with ⟨_, hres⟩ | ⟨_, m, _, hres⟩ <;>
        rw [hres, mkResult_y, hpy]
    refine ⟨cls, ?_, ?_, ?_⟩
    · rw [← hraw]
      exact hcls
    · rw [hnorm]
      exact hcls
    · rw [hy]
      exact hy0eq

/-- Witness for `C9_thm` at the concrete frame `cDS` and the run
`baseInput`. -/
theorem C9_witness :
    isOkN (normalizeStep cSD cDS) = true ∧
    (∀ k ∈ restoredCols, getCol? (normalizeD cSD cDS) k = getCol? cDS k) ∧
    isOkE (runScript baseInput) = true ∧ baseInput.csv = Except.ok cDS ∧
    (∃ cls, getCol? cDS "Class" = some cls ∧
      getCol? (runResultD baseInput).normalized "Class" = some cls ∧
      (runResultD baseInput).y = ⟨[("Class", cls)]⟩) :=
  ⟨by decide, C9_thm.1 cSD cDS (by decide), by decide, rfl,
   C9_thm.2 baseInput cDS (by decide) rfl⟩

/-! ### Claim C10 -/

/-- C10: the claim that 20% of the rows are placed in the test set is false
as an exact statement: on a six-row dataset, sklearn places
`ceil(0.2 * 6) = 2` rows in the test partition, and `2 ≠ 0.2 * 6`. -/
theorem C10_counterexample :
    List.Perm perm6 (List.range (nRows X6)) ∧
    nRows ((trainTestSplit perm6 X6 y6).Xte) = 2 ∧
    (2 : ℚ) ≠ test_size * ((nRows X6 : ℕ) : ℚ) := by
  refine ⟨by decide, by decide, ?_⟩
  norm_num [test_size, nRows, X6]

/-- C10 (amended): the split is deterministic — any two runs agreeing on
the CSV content, the std oracle and the RNG produce identical prepared
states, the seed being the constant `12` and the test fraction the constant
`1/5` — and the test partition receives `⌈0.2·n⌉` rows (each test column
has `testCount n` entries, each train column the remaining `n - testCount n`,
and test and train indices together are exactly the drawn permutation);
`⌈0.2·n⌉` equals exactly 20% of the rows precisely when `5 ∣ n`. -/
theorem C10_amended :
    seed = 12 ∧ test_size = 1/5 ∧
    (∀ inp1 inp2 : Input, inp1.csv = inp2.csv → inp1.sd = inp2.sd →
       inp1.rng = inp2.rng → prepare inp1 = prepare inp2) ∧
    (∀ (X y : DataFrame) (perm : List Nat),
       List.Perm perm (List.range (nRows X)) →
       (∀ c ∈ X.cols, c.2.length = nRows X) →
       (∀ c ∈ (trainTestSplit perm X y).Xte.cols,
          c.2.length = testCount (nRows X)) ∧
       (∀ c ∈ (trainTestSplit perm X y).Xtr.cols,
          c.2.length = nRows X - testCount (nRows X)) ∧
       perm.take (testCount (nRows X)) ++ perm.drop (testCount (nRows X))
         = perm) ∧
    (∀ n : Nat, testCount n = (Int.ceil (test_size * (n : ℚ))).toNat) ∧
    (∀ n : Nat, 5 ∣ n → (testCount n : ℚ) = test_size * n) := by
  refine ⟨rfl, rfl, ?_, ?_, testCount_eq_ceil, testCount_exact⟩
  · intro inp1 inp2 h1 h2 h3
    unfold prepare
    rw [h1, h2, h3]
  · intro X y perm hperm hwf
    have hlen : perm.length = nRows X := by
      rw [hperm.length_eq, List.length_range]
    have hmem : ∀ i ∈ perm, i < nRows X := by
      intro i hi
      exact List.mem_range.mp (hperm.mem_iff.mp hi)
    refine ⟨?_, ?_, List.take_append_drop _ _⟩
    · intro c hc
      simp only [trainTestSplit, selectRows, List.mem_map] at hc
      obtain ⟨c0, hc0, rfl⟩ := hc
      have hbound : ∀ i ∈ perm.take (testCount (nRows X)),
          i < c0.2.length := by
        intro i hi
        rw [hwf c0 hc0]
        exact hmem i (List.take_subset _ _ hi)
      rw [selectRows_col_length _ _ hbound, List.length_take, hlen]
      exact min_eq_left (testCount_le _)
    · intro c hc
      simp only [trainTestSplit, selectRows, List.mem_map] at hc
      obtain ⟨c0, hc0, rfl⟩ := hc
      have hbound : ∀ i ∈ perm.drop (testCount (nRows X)),
          i < c0.2.length := by
        intro i hi
        rw [hwf c0 hc0]
        exact hmem i (List.drop_subset _ _ hi)
      rw [selectRows_col_length _ _ hbound, List.length_drop, hlen]

/-- Witness for `C10_amended` at the six-row frame `X6` and at `n = 10`. -/
theorem C10_amended_witness :
    List.Perm perm6 (List.range (nRows X6)) ∧
    (∀ c ∈ X6.cols, c.2.length = nRows X6) ∧
    ((∀ c ∈ (trainTestSplit perm6 X6 y6).Xte.cols,
        c.2.length = testCount (nRows X6)) ∧
     (∀ c ∈ (trainTestSplit perm6 X6 y6).Xtr.cols,
        c.2.length = nRows X6 - testCount (nRows X6)) ∧
     perm6.take (testCount (nRows X6)) ++ perm6.drop (testCount (nRows X6))
       = perm6) ∧
    (5 ∣ 10 ∧ ((testCount 10 : ℕ) : ℚ) = test_size * ((10 : ℕ) : ℚ)) :=
  ⟨by decide, by decide,
   C10_amended.2.2.2.1 X6 y6 perm6 (by decide) (by decide),
   by decide, C10_amended.2.2.2.2.2 10 (by decide)⟩

end TrainPy
